import Mathlib

/-!
# Ciphera: verification of the protocol core against its specification

Shallow embedding of the Ciphera repository's cryptographic protocol stack:
the X3DH handshake (`internal/protocol/x3dh/x3dh.go`), the Double Ratchet
(`internal/protocol/ratchet/ratchet.go`), the message service
(`internal/services/message/service.go`), the pre-key file store
(`internal/store/prekey_store.go`) and the relay queue (`cmd/relay/main.go`).

Bytes are modelled as `Nat` (values below 256 where it matters) and byte
strings as `List Nat`.  The external cryptographic primitives from
`golang.org/x/crypto` (curve25519, hkdf, chacha20poly1305, ed25519) are not
part of the repository; they are modelled by executable stand-ins that keep
the algebraic structure the code relies on:

* X25519 is modelled as modular exponentiation over `Nat` (`dhMod`), which is
  commutative in the way Diffie-Hellman requires; scalar clamping and
  low-order-point rejection are abstracted away and the operation is total.
* HKDF-SHA256 is modelled by a deterministic mixing function that keeps the
  three inputs (ikm, salt, info) in distinct roles, like real HKDF does.
* ChaCha20-Poly1305 is modelled as an ideal AEAD: a ciphertext is a record of
  the key, nonce, associated data and plaintext used to seal it, and opening
  succeeds exactly when key, nonce and associated data all match.
* Ed25519 is modelled as an ideal signature scheme over the same scalar model.
* Randomness (`crypto/rand`) is passed in explicitly as `Nat` entropy
  parameters (the sampled scalar).

All repository functions are translated statement-by-statement from the Go
source, including their in-place mutations: functions that mutate state
return the post-call state alongside the result, also on error paths.
-/

set_option maxRecDepth 16384

namespace Ciphera

/-- Decidable equality for `Except`, used to evaluate the concrete
scenarios by `decide`. -/
instance {ε α : Type} [DecidableEq ε] [DecidableEq α] :
    DecidableEq (Except ε α) := fun x y =>
  match x, y with
  | .ok a, .ok b =>
      if h : a = b then .isTrue (h ▸ rfl)
      else .isFalse fun hc => h (Except.ok.inj hc)
  | .error a, .error b =>
      if h : a = b then .isTrue (h ▸ rfl)
      else .isFalse fun hc => h (Except.error.inj hc)
  | .ok _, .error _ => .isFalse fun hc => Except.noConfusion hc
  | .error _, .ok _ => .isFalse fun hc => Except.noConfusion hc

/-! ## Byte-string helpers -/

/-- Little-endian base-256 digits of `x`, padded/truncated to `n` bytes.
Models conversion of an integer-valued model key to a fixed-size Go byte
array. -/
def bytesOfNat : Nat → Nat → List Nat
  | 0, _ => []
  | n + 1, x => x % 256 :: bytesOfNat n (x / 256)

/-- Reassemble a little-endian base-256 byte list into a `Nat`. -/
def natOfBytes : List Nat → Nat
  | [] => 0
  | b :: rest => b + 256 * natOfBytes rest

theorem bytesOfNat_length (n x : Nat) : (bytesOfNat n x).length = n := by
  induction n generalizing x with
  | zero => rfl
  | succ n ih => simp [bytesOfNat, ih]

theorem natOfBytes_bytesOfNat (n x : Nat) :
    natOfBytes (bytesOfNat n x) = x % 256 ^ n := by
  induction n generalizing x with
  | zero => simp [bytesOfNat, natOfBytes, Nat.mod_one]
  | succ n ih =>
      have h256 : (0:Nat) < 256 := by norm_num
      calc natOfBytes (bytesOfNat (n + 1) x)
          = x % 256 + 256 * (x / 256 % 256 ^ n) := by
            simp [bytesOfNat, natOfBytes, ih]
        _ = x % (256 * 256 ^ n) := (Nat.mod_mul).symm
        _ = x % 256 ^ (n + 1) := by ring_nf

/-- Big-endian serialisation of a `uint32`, as `binary.BigEndian.PutUint32`
produces (the Go argument is already a `uint32`, so the value is reduced
modulo `2 ^ 32`). -/
def be32 (x : Nat) : List Nat :=
  (bytesOfNat 4 (x % 2 ^ 32)).reverse

/-! ## Model of the external X25519 primitive (`golang.org/x/crypto/curve25519`)

`dhMod` is the modulus of the commutative-exponentiation model; it is below
`256 ^ 32`, so every model key fits the 32-byte wire format. -/

def dhMod : Nat := 1000003

def dhGen : Nat := 5

/-- Model of `curve25519.X25519(priv, basepoint)`: the public key bytes for a
private scalar. -/
def pubOfScalar (priv : Nat) : List Nat :=
  bytesOfNat 32 (dhGen ^ priv % dhMod)

/-- Model of `crypto.DH(priv, pub)` (`internal/crypto/x25519.go`): X25519
shared secret as 32 bytes.  Total; low-order-point failure is abstracted
away. -/
def dh (priv : Nat) (pub : List Nat) : List Nat :=
  bytesOfNat 32 (natOfBytes pub ^ priv % dhMod)

theorem pubOfScalar_length (priv : Nat) : (pubOfScalar priv).length = 32 :=
  bytesOfNat_length ..

theorem dhMod_lt : dhMod < 256 ^ 32 := by norm_num [dhMod]

theorem natOfBytes_pubOfScalar (priv : Nat) :
    natOfBytes (pubOfScalar priv) = dhGen ^ priv % dhMod := by
  have hlt : dhGen ^ priv % dhMod < 256 ^ 32 :=
    lt_trans (Nat.mod_lt _ (by norm_num [dhMod])) dhMod_lt
  rw [pubOfScalar, natOfBytes_bytesOfNat, Nat.mod_eq_of_lt hlt]

/-- Diffie-Hellman commutativity in the model: both parties derive the same
shared secret from their own private scalar and the peer's public key. -/
theorem dh_comm (a b : Nat) : dh a (pubOfScalar b) = dh b (pubOfScalar a) := by
  unfold dh
  rw [natOfBytes_pubOfScalar, natOfBytes_pubOfScalar,
    ← Nat.pow_mod, ← Nat.pow_mod, ← pow_mul, ← pow_mul, mul_comm b a]

/-! ## Model of HKDF-SHA256 (`golang.org/x/crypto/hkdf` with `sha256.New`) -/

/-- Mix a byte list into an accumulator.  Auxiliary to the HKDF model; the
multiplier `2 ^ 64 + 13` spreads every absorbed byte across many base-256
digits of the accumulator, so all 64 output bytes of a derivation depend on
the inputs. -/
def mixBytes (acc : Nat) (l : List Nat) : Nat :=
  l.foldl (fun h b => h * 18446744073709551629 + b + 1) acc

/-- Executable stand-in for HKDF-SHA256.  `hkdfSHA256 ikm salt info n` models
`io.ReadFull` of `n` bytes from `hkdf.New(sha256.New, ikm, salt, info)`.
The three inputs are kept in distinct roles (domain-separated), mirroring
the fact that real HKDF treats ikm, salt and info asymmetrically. -/
def hkdfSHA256 (ikm salt info : List Nat) (n : Nat) : List Nat :=
  let seed := mixBytes (mixBytes (mixBytes 17 ikm + 7) salt + 11) info
  (List.range n).map fun i => seed / 256 ^ i % 256

theorem hkdfSHA256_length (ikm salt info : List Nat) (n : Nat) :
    (hkdfSHA256 ikm salt info n).length = n := by
  simp [hkdfSHA256]

/-! ## Model of the ChaCha20-Poly1305 AEAD (`golang.org/x/crypto/chacha20poly1305`)

An ideal AEAD: the ciphertext records everything that went into sealing, and
`aeadOpen` succeeds exactly when key, nonce and associated data match. -/

structure AEADCiphertext where
  key : List Nat
  nonce : List Nat
  aad : List Nat
  pt : List Nat
deriving DecidableEq, Repr

/-- Model of `aead.Seal(nil, nonce, plaintext, ad)`. -/
def aeadSeal (key nonce pt aad : List Nat) : AEADCiphertext :=
  ⟨key, nonce, aad, pt⟩

/-- Model of `aead.Open(nil, nonce, ct, ad)`: `none` is the authentication
failure. -/
def aeadOpen (key nonce : List Nat) (ct : AEADCiphertext) (aad : List Nat) :
    Option (List Nat) :=
  if ct.key = key ∧ ct.nonce = nonce ∧ ct.aad = aad then some ct.pt else none

theorem aeadOpen_aeadSeal (key nonce pt aad : List Nat) :
    aeadOpen key nonce (aeadSeal key nonce pt aad) aad = some pt := by
  simp [aeadOpen, aeadSeal]

/-! ## Model of Ed25519 (`internal/crypto/ed25519.go` via `crypto/ed25519`)

An ideal signature scheme: a signature is a deterministic tag of the public
key and the message, verification recomputes the tag. -/

def edPubOfScalar (priv : Nat) : List Nat :=
  bytesOfNat 32 (7 ^ priv % dhMod)

/-- Model of `crypto.SignEd25519`. -/
def signEd25519 (priv : Nat) (msg : List Nat) : List Nat :=
  bytesOfNat 64 (mixBytes (mixBytes 29 (edPubOfScalar priv)) msg)

/-- Model of `crypto.VerifyEd25519`. -/
def verifyEd25519 (pub : List Nat) (msg sig : List Nat) : Bool :=
  sig = bytesOfNat 64 (mixBytes (mixBytes 29 pub) msg)

theorem verifyEd25519_signEd25519 (priv : Nat) (msg : List Nat) :
    verifyEd25519 (edPubOfScalar priv) msg (signEd25519 priv msg) = true := by
  simp [verifyEd25519, signEd25519]

/-! ## Double Ratchet (`internal/protocol/ratchet/ratchet.go`) -/

namespace ratchet

/-- `maxSkippedMK` (ratchet.go line 23). -/
def maxSkippedMK : Nat := 1000

/-- `maxGapWithinChain` (ratchet.go line 24). -/
def maxGapWithinChain : Nat := 2000

/-- `maxPrevChainGap` (ratchet.go line 25). -/
def maxPrevChainGap : Nat := 2000

/-- `labelRK = []byte("DR|rk")` as ASCII bytes. -/
def labelRK : List Nat := [68, 82, 124, 114, 107]

/-- `labelCK = []byte("DR|ck")` as ASCII bytes (single label for both send
and receive chains). -/
def labelCK : List Nat := [68, 82, 124, 99, 107]

/-- `labelNonce = []byte("DR|nonce")` as ASCII bytes. -/
def labelNonce : List Nat := [68, 82, 124, 110, 111, 110, 99, 101]

/-- The ratchet error values of ratchet.go.  `decryptFailed` is the
chacha20poly1305 authentication error surfaced by `open`; `invalidHeader`
is the anonymous `errors.New("invalid header: dh_pub length")`. -/
inductive RatchetError where
  | invalidHeader
  | chainUninitialised
  | gapTooLarge
  | oldOrReplay
  | decryptFailed
deriving DecidableEq, Repr

/-- `domain.RatchetHeader` (`internal/domain/types/ratchet.go`): the
`uint32` fields are carried as `Nat` values (below `2 ^ 32` whenever they
were produced by the code). -/
structure RatchetHeader where
  dhPub : List Nat
  previousChainLength : Nat
  messageIndex : Nat
deriving DecidableEq, Repr

/-- The skipped-key map key produced by `skippedKeyID`: hex of the 32 public
key bytes followed by `BigEndian.PutUint32(n)`, modelled structurally as the
pair (public key bytes, index). -/
abbrev SkippedKeyId := List Nat × Nat

/-- `skippedKeyID(pub, n)` (ratchet.go line 510). -/
def skippedKeyID (pub : List Nat) (n : Nat) : SkippedKeyId := (pub, n)

/-- `domain.RatchetState`.  The Go map `SkippedKeys` is modelled as an
association list with unique keys; the unspecified Go map iteration order
only matters in the eviction fallback, where the model picks the first
entry. -/
structure RatchetState where
  rootKey : List Nat
  dhPriv : Nat
  dhPub : List Nat
  peerDHPub : List Nat
  sendChainKey : Option (List Nat)
  receiveChainKey : Option (List Nat)
  sendMessageIndex : Nat
  receiveMessageIndex : Nat
  previousChainLength : Nat
  skippedKeys : List (SkippedKeyId × List Nat)
deriving DecidableEq, Repr

/-- Go map read `m[k]`. -/
def lookupSK (m : List (SkippedKeyId × List Nat)) (k : SkippedKeyId) :
    Option (List Nat) :=
  (m.find? (fun e => e.1 = k)).map (·.2)

/-- Go map write `m[k] = v`: replace in place if present, else append. -/
def insertSK (m : List (SkippedKeyId × List Nat)) (k : SkippedKeyId)
    (v : List Nat) : List (SkippedKeyId × List Nat) :=
  if m.any (fun e => e.1 = k) then
    m.map (fun e => if e.1 = k then (k, v) else e)
  else
    m ++ [(k, v)]

/-- Go map delete `delete(m, k)`. -/
def eraseSK (m : List (SkippedKeyId × List Nat)) (k : SkippedKeyId) :
    List (SkippedKeyId × List Nat) :=
  m.filter (fun e => ¬ e.1 = k)

/-- `wipeAndDelete` (ratchet.go line 518): the removed value's bytes are
wiped before the entry is dropped; in a by-value model the wipe of a removed
value is unobservable, so this is an erase. -/
def wipeAndDelete (m : List (SkippedKeyId × List Nat)) (k : SkippedKeyId) :
    List (SkippedKeyId × List Nat) :=
  eraseSK m k

/-- `crypto.Wipe` applied in place to a value still stored in the map:
the entry's bytes all become zero but the entry stays. -/
def wipeValueInPlace (m : List (SkippedKeyId × List Nat)) (k : SkippedKeyId) :
    List (SkippedKeyId × List Nat) :=
  m.map (fun e => if e.1 = k then (e.1, List.replicate e.2.length 0) else e)

/-- `evictOldestForPeer` (ratchet.go line 527): drop the lowest-index entry
for `peer`; if none exists, drop an arbitrary entry (the model drops the
first). -/
def evictOldestForPeer (m : List (SkippedKeyId × List Nat))
    (peer : List Nat) : List (SkippedKeyId × List Nat) :=
  let forPeer := (m.filter (fun e => e.1.1 = peer)).map (fun e => e.1.2)
  match forPeer.min? with
  | some n => wipeAndDelete m (skippedKeyID peer n)
  | none =>
      match m with
      | [] => []
      | e :: rest => wipeAndDelete (e :: rest) e.1

/-- `kdfRK(root, dhOut)` (ratchet.go line 374): HKDF with ikm = the DH
output, salt = the root key, info = `labelRK`; 64 bytes split 32/32 into
(new root key, chain key). -/
def kdfRK (root dhOut : List Nat) : List Nat × List Nat :=
  let out := hkdfSHA256 dhOut root labelRK 64
  (out.take 32, out.drop 32)

/-- The chain-step KDF shared by `kdfCKSend` and `kdfCKRecv`: HKDF with
ikm = the chain key, salt = nil, info = `labelCK`; 64 bytes split 32/32 into
(next chain key, message key). -/
def kdfCK (ck : List Nat) : List Nat × List Nat :=
  let out := hkdfSHA256 ck [] labelCK 64
  (out.take 32, out.drop 32)

/-- `kdfCKSend` (ratchet.go line 388): advances `SendChainKey` in place and
returns the message key, or `ErrChainUninitialised`. -/
def kdfCKSend (s : RatchetState) : Option (List Nat) × RatchetState :=
  match s.sendChainKey with
  | none => (none, s)
  | some ck =>
      let (nextCK, mk) := kdfCK ck
      (some mk, { s with sendChainKey := some nextCK })

/-- `kdfCKRecv` (ratchet.go line 406): advances `ReceiveChainKey` in place
and returns the message key, or `ErrChainUninitialised`. -/
def kdfCKRecv (s : RatchetState) : Option (List Nat) × RatchetState :=
  match s.receiveChainKey with
  | none => (none, s)
  | some ck =>
      let (nextCK, mk) := kdfCK ck
      (some mk, { s with receiveChainKey := some nextCK })

/-- `deriveNonce(messageKey)` (ratchet.go line 426): HKDF with ikm = the
message key, salt = nil, info = `labelNonce`, 12 bytes. -/
def deriveNonce (mk : List Nat) : List Nat :=
  hkdfSHA256 mk [] labelNonce 12

/-- `headerBytes(h)` (ratchet.go line 474): `DHPub || BE32(PN) || BE32(N)`. -/
def headerBytes (h : RatchetHeader) : List Nat :=
  h.dhPub ++ be32 h.previousChainLength ++ be32 h.messageIndex

/-- `composeAAD(ad, header)` (ratchet.go line 484). -/
def composeAAD (ad : List Nat) (h : RatchetHeader) : List Nat :=
  ad ++ headerBytes h

/-- `seal(mk, header, aad, pt)` (ratchet.go line 436). -/
def sealCT (mk : List Nat) (aad pt : List Nat) : AEADCiphertext :=
  aeadSeal mk (deriveNonce mk) pt aad

/-- `open(mk, header, aad, ct)` (ratchet.go line 454). -/
def openCT (mk : List Nat) (aad : List Nat) (ct : AEADCiphertext) :
    Option (List Nat) :=
  aeadOpen mk (deriveNonce mk) ct aad

/-- `InitAsInitiator(root, _, _, peerIdentity)` (ratchet.go line 51).
`entropy` is the scalar sampled by `rand.Read` for the fresh ratchet key
pair.  Only the send chain is derived; indices start at zero and the skipped
map is empty. -/
def InitAsInitiator (root : List Nat) (_ourPriv : Nat) (_ourPub : List Nat)
    (peerIdentity : List Nat) (entropy : Nat) : RatchetState :=
  let privateKey := entropy
  let publicKey := pubOfScalar entropy
  let dhOut := dh privateKey peerIdentity
  let (newRootKey, sendChainKey) := kdfRK root dhOut
  { rootKey := newRootKey
    dhPriv := privateKey
    dhPub := publicKey
    peerDHPub := peerIdentity
    sendChainKey := some sendChainKey
    receiveChainKey := none
    sendMessageIndex := 0
    receiveMessageIndex := 0
    previousChainLength := 0
    skippedKeys := [] }

/-- `InitAsResponder(root, ourIdentityPrivate, _, senderRatchetPublic)`
(ratchet.go line 95).  Only the receive chain is derived. -/
def InitAsResponder (root : List Nat) (ourIdentityPrivate : Nat)
    (_ourPub : List Nat) (senderRatchetPublic : List Nat) (entropy : Nat) :
    RatchetState :=
  let privateKey := entropy
  let publicKey := pubOfScalar entropy
  let dhOut := dh ourIdentityPrivate senderRatchetPublic
  let (newRootKey, receiveChainKey) := kdfRK root dhOut
  { rootKey := newRootKey
    dhPriv := privateKey
    dhPub := publicKey
    peerDHPub := senderRatchetPublic
    sendChainKey := none
    receiveChainKey := some receiveChainKey
    sendMessageIndex := 0
    receiveMessageIndex := 0
    previousChainLength := 0
    skippedKeys := [] }

/-- `ensureSendChain` (ratchet.go line 180): lazily performs the sending
ratchet step when `SendChainKey` is nil.  `entropy` is the freshly sampled
ratchet scalar. -/
def ensureSendChain (s : RatchetState) (entropy : Nat) : RatchetState :=
  match s.sendChainKey with
  | some _ => s
  | none =>
      let s := { s with previousChainLength := s.sendMessageIndex,
                        sendMessageIndex := 0 }
      let nextPrivateKey := entropy
      let nextPublicKey := pubOfScalar entropy
      let dhOut := dh nextPrivateKey s.peerDHPub
      let (newRootKey, sendChainKey) := kdfRK s.rootKey dhOut
      { s with rootKey := newRootKey
               dhPriv := nextPrivateKey
               dhPub := nextPublicKey
               sendChainKey := some sendChainKey }

/-- `Encrypt(state, associatedData, plaintext)` (ratchet.go line 141).
Returns the result together with the post-call state (the Go function
mutates `state` in place).  `entropy` feeds the lazy sending ratchet step
when one is needed. -/
def Encrypt (s : RatchetState) (associatedData plaintext : List Nat)
    (entropy : Nat) :
    Except RatchetError (RatchetHeader × AEADCiphertext) × RatchetState :=
  let s := ensureSendChain s entropy
  match kdfCKSend s with
  | (none, s) => (.error .chainUninitialised, s)
  | (some messageKey, s) =>
      let header : RatchetHeader :=
        ⟨s.dhPub, s.previousChainLength, s.sendMessageIndex⟩
      let aad := composeAAD associatedData header
      let ciphertext := sealCT messageKey aad plaintext
      (.ok (header, ciphertext),
        { s with sendMessageIndex := (s.sendMessageIndex + 1) % 2 ^ 32 })

/-- One iteration of the skipped-key stashing loop (the body shared by
`skipUntil`, ratchet.go line 495, and step 4 of `Decrypt`, line 280):
derive one message key from the receive chain (the error of `kdfCKRecv` is
ignored, a nil key is stashed in that case), evict under the cap, stash
under `(peerDHPub, Nr)` and increment `Nr`. -/
def stashStep (s : RatchetState) : RatchetState :=
  match kdfCKRecv s with
  | (mkOpt, s1) =>
      let sk :=
        if s1.skippedKeys.length ≥ maxSkippedMK then
          evictOldestForPeer s1.skippedKeys s1.peerDHPub
        else s1.skippedKeys
      { s1 with
        skippedKeys :=
          insertSK sk (skippedKeyID s1.peerDHPub s1.receiveMessageIndex)
            (mkOpt.getD [])
        receiveMessageIndex := s1.receiveMessageIndex + 1 }

/-- Fuel-indexed unfolding of the `for state.ReceiveMessageIndex < target`
loop; each iteration increments `ReceiveMessageIndex` by exactly one. -/
def skipUntilAux : Nat → RatchetState → RatchetState
  | 0, s => s
  | fuel + 1, s => skipUntilAux fuel (stashStep s)

/-- `skipUntil(state, previousChainLength)` (ratchet.go line 495). -/
def skipUntil (s : RatchetState) (target : Nat) : RatchetState :=
  skipUntilAux (target - s.receiveMessageIndex) s

/-- `handlePeerRatchet(state, header, peerPublicKey)` (ratchet.go line 310).
Returns the post-call state also on the error path (the gap check fires
before any mutation).  `entropy` is the freshly sampled next ratchet
scalar. -/
def handlePeerRatchet (s : RatchetState) (header : RatchetHeader)
    (peerPublicKey : List Nat) (entropy : Nat) :
    Except RatchetError Unit × RatchetState :=
  if header.previousChainLength > s.receiveMessageIndex ∧
      header.previousChainLength - s.receiveMessageIndex > maxPrevChainGap then
    (.error .gapTooLarge, s)
  else
    let s := skipUntil s header.previousChainLength
    let dhOut := dh s.dhPriv peerPublicKey
    let (newRootKey, receiveChainKey) := kdfRK s.rootKey dhOut
    let nextPrivateKey := entropy
    let nextPublicKey := pubOfScalar entropy
    let dhOut2 := dh nextPrivateKey peerPublicKey
    let (nextRootKey, sendChainKey) := kdfRK newRootKey dhOut2
    (.ok (),
      { s with
        previousChainLength := s.sendMessageIndex
        sendMessageIndex := 0
        receiveMessageIndex := 0
        rootKey := nextRootKey
        dhPriv := nextPrivateKey
        dhPub := nextPublicKey
        peerDHPub := peerPublicKey
        sendChainKey := some sendChainKey
        receiveChainKey := some receiveChainKey })

/-- Steps 4-5 of `Decrypt` (ratchet.go lines 279-306), written inline in the
source: stash skipped keys up to the target index, derive the target message
key (advancing the receive chain key in place), open, and only on success
increment `ReceiveMessageIndex`. -/
def decryptTail (s : RatchetState) (associatedData : List Nat)
    (header : RatchetHeader) (ciphertext : AEADCiphertext) :
    Except RatchetError (List Nat) × RatchetState :=
  let s := skipUntil s header.messageIndex
  match kdfCKRecv s with
  | (none, s) => (.error .chainUninitialised, s)
  | (some messageKey, s) =>
      let aad := composeAAD associatedData header
      match openCT messageKey aad ciphertext with
      | none => (.error .decryptFailed, s)
      | some plaintext =>
          (.ok plaintext,
            { s with
              receiveMessageIndex := (s.receiveMessageIndex + 1) % 2 ^ 32 })

/-- `Decrypt(state, associatedData, header, ciphertext)` (ratchet.go
line 220).  Returns the result together with the post-call state (the Go
function mutates `state` in place, also before error returns).  The
`sameChain` constant-time comparison is byte-list equality.  When the
skipped-key AEAD open fails, `crypto.Wipe(messageKey)` has already zeroed
the value stored in the map, so the kept entry's value becomes all-zero. -/
def Decrypt (s : RatchetState) (associatedData : List Nat)
    (header : RatchetHeader) (ciphertext : AEADCiphertext) (entropy : Nat) :
    Except RatchetError (List Nat) × RatchetState :=
  if header.dhPub.length ≠ 32 then (.error .invalidHeader, s)
  else
    let headerPublicKey := header.dhPub
    let keyID := skippedKeyID headerPublicKey header.messageIndex
    match lookupSK s.skippedKeys keyID with
    | some messageKey =>
        let aad := composeAAD associatedData header
        match openCT messageKey aad ciphertext with
        | none =>
            (.error .decryptFailed,
              { s with skippedKeys := wipeValueInPlace s.skippedKeys keyID })
        | some plaintext =>
            (.ok plaintext,
              { s with skippedKeys := wipeAndDelete s.skippedKeys keyID })
    | none =>
        if s.peerDHPub = headerPublicKey then
          if header.messageIndex > s.receiveMessageIndex ∧
              header.messageIndex - s.receiveMessageIndex >
                maxGapWithinChain then
            (.error .gapTooLarge, s)
          else if header.messageIndex < s.receiveMessageIndex then
            (.error .oldOrReplay, s)
          else
            decryptTail s associatedData header ciphertext
        else
          match handlePeerRatchet s header headerPublicKey entropy with
          | (.error e, s) => (.error e, s)
          | (.ok (), s) => decryptTail s associatedData header ciphertext

end ratchet

/-! ## X3DH (`internal/protocol/x3dh/x3dh.go`) -/

namespace x3dh

/-- `domain.Identity`: X25519 (DH) and Ed25519 (signing) key pairs.  Private
keys are model scalars. -/
structure Identity where
  xPriv : Nat
  xPub : List Nat
  edPriv : Nat
  edPub : List Nat
deriving DecidableEq, Repr

/-- One entry of `bundle.OneTime`. -/
structure OneTimePrekey where
  id : String
  pub : List Nat
deriving DecidableEq, Repr

/-- `domain.PrekeyBundle` as used by x3dh.go. -/
structure PrekeyBundle where
  username : String
  identityKey : List Nat
  signKey : List Nat
  spkID : String
  signedPrekey : List Nat
  signedPrekeySig : List Nat
  oneTime : List OneTimePrekey
deriving DecidableEq, Repr

/-- `domain.PrekeyMessage`: the bootstrap data attached to the first
envelope.  An empty `opkID` means no one-time pre-key was used. -/
structure PrekeyMessage where
  initiatorIK : List Nat
  ephemeral : List Nat
  spkID : String
  opkID : String
deriving DecidableEq, Repr

/-- `errBadSPK` (x3dh.go line 116). -/
inductive X3DHError where
  | badSignedPrekey
deriving DecidableEq, Repr

/-- `VerifySPK(bundle)` (x3dh.go line 14). -/
def VerifySPK (bundle : PrekeyBundle) : Bool :=
  verifyEd25519 bundle.signKey bundle.signedPrekey bundle.signedPrekeySig

/-- The HKDF info label `"ciphera/x3dh-v1"` as ASCII bytes. -/
def labelX3DH : List Nat :=
  [99, 105, 112, 104, 101, 114, 97, 47, 120, 51, 100, 104, 45, 118, 49]

/-- `InitiatorRoot(our, bundle)` (x3dh.go line 20): verify the signed
pre-key, pick the first one-time pre-key if any, compute DH1..DH3 (and DH4
when a one-time pre-key is present), and HKDF the concatenation with salt
nil and info `labelX3DH` into a 32-byte root key.  Returns
`(rk, spkID, opkID, ephPub)`; `ephEntropy` is the scalar sampled by
`crypto.GenerateX25519` for the ephemeral key. -/
def InitiatorRoot (our : Identity) (bundle : PrekeyBundle)
    (ephEntropy : Nat) :
    Except X3DHError (List Nat × String × String × List Nat) :=
  if ¬ VerifySPK bundle then .error .badSignedPrekey
  else
    let ephPriv := ephEntropy
    let ephPub := pubOfScalar ephEntropy
    let spkID := bundle.spkID
    let opkChoice : String × Option (List Nat) :=
      match bundle.oneTime with
      | [] => ("", none)
      | o :: _ => (o.id, some o.pub)
    let dh1 := dh our.xPriv bundle.signedPrekey
    let dh2 := dh ephPriv bundle.identityKey
    let dh3 := dh ephPriv bundle.signedPrekey
    let transcript := dh1 ++ dh2 ++ dh3 ++
      (match opkChoice.2 with
       | none => []
       | some opk => dh ephPriv opk)
    let rk := hkdfSHA256 transcript [] labelX3DH 32
    .ok (rk, spkID, opkChoice.1, ephPub)

/-- `ResponderRoot(my, spkPriv, opkPriv, pm)` (x3dh.go line 75): the
symmetric computation on the responder side.  Total in the model (the Go
error paths are DH failures of the external primitive). -/
def ResponderRoot (my : Identity) (spkPriv : Nat) (opkPriv : Option Nat)
    (pm : PrekeyMessage) : List Nat :=
  let dh1 := dh spkPriv pm.initiatorIK
  let dh2 := dh my.xPriv pm.ephemeral
  let dh3 := dh spkPriv pm.ephemeral
  let transcript := dh1 ++ dh2 ++ dh3 ++
    (match opkPriv with
     | none => []
     | some k => dh k pm.ephemeral)
  hkdfSHA256 transcript [] labelX3DH 32

/-- An identity whose public halves honestly correspond to its private
scalars (as `cmd/ciphera` creates via `crypto.GenerateX25519` and
`crypto.GenerateEd25519`). -/
def mkIdentity (x ed : Nat) : Identity :=
  ⟨x, pubOfScalar x, ed, edPubOfScalar ed⟩

/-- A pre-key bundle honestly produced from `owner`'s identity: the signed
pre-key public matches `spkPriv` and is signed by the owner's Ed25519 key;
each one-time pre-key public matches its scalar (as the prekey service
publishes them). -/
def honestBundle (owner : Identity) (username spkID : String)
    (spkPriv : Nat) (opks : List (String × Nat)) : PrekeyBundle :=
  { username := username
    identityKey := owner.xPub
    signKey := owner.edPub
    spkID := spkID
    signedPrekey := pubOfScalar spkPriv
    signedPrekeySig := signEd25519 owner.edPriv (pubOfScalar spkPriv)
    oneTime := opks.map (fun p => ⟨p.1, pubOfScalar p.2⟩) }

end x3dh

/-! ## Generic string-keyed map model

Go `map[string]T` values (the JSON files of the stores, the relay's
per-user tables) are modelled as association lists with unique keys. -/

def lookupStr {α : Type} (m : List (String × α)) (k : String) : Option α :=
  (m.find? (fun e => e.1 = k)).map (·.2)

def insertStr {α : Type} (m : List (String × α)) (k : String) (v : α) :
    List (String × α) :=
  if m.any (fun e => e.1 = k) then
    m.map (fun e => if e.1 = k then (k, v) else e)
  else
    m ++ [(k, v)]

def eraseStr {α : Type} (m : List (String × α)) (k : String) :
    List (String × α) :=
  m.filter (fun e => ¬ e.1 = k)

/-! ## Pre-key file store (`internal/store/prekey_store.go`) -/

namespace store

/-- `spkPair` (prekey_store.go line 28). -/
structure SpkPair where
  priv : Nat
  pub : List Nat
  sig : List Nat
deriving DecidableEq, Repr

/-- `opkPair` (prekey_store.go line 34). -/
structure OpkPair where
  priv : Nat
  pub : List Nat
deriving DecidableEq, Repr

/-- The on-disk state of a `PrekeyFileStore`: the three JSON files.  An
empty `currentSignedPreKeyID` means none was recorded (`prekeyMeta`'s zero
value). -/
structure PrekeyFileStore where
  spkPairs : List (String × SpkPair)
  opkPairs : List (String × OpkPair)
  currentSignedPreKeyID : String
deriving DecidableEq, Repr

/-- `SaveSignedPreKey` (prekey_store.go line 44). -/
def SaveSignedPreKey (s : PrekeyFileStore) (id : String) (priv : Nat)
    (pub : List Nat) (sig : List Nat) : PrekeyFileStore :=
  { s with spkPairs := insertStr s.spkPairs id ⟨priv, pub, sig⟩ }

/-- `LoadSignedPreKey` (prekey_store.go line 61): zero values and
`ok = false` when the id is missing. -/
def LoadSignedPreKey (s : PrekeyFileStore) (id : String) :
    Nat × List Nat × List Nat × Bool :=
  match lookupStr s.spkPairs id with
  | none => (0, List.replicate 32 0, [], false)
  | some p => (p.priv, p.pub, p.sig, true)

/-- `SaveOneTimePreKeys` (prekey_store.go line 86): merge the provided
pairs into the store. -/
def SaveOneTimePreKeys (s : PrekeyFileStore)
    (pairs : List (String × OpkPair)) : PrekeyFileStore :=
  { s with
    opkPairs := pairs.foldl (fun m p => insertStr m p.1 p.2) s.opkPairs }

/-- `ConsumeOneTimePreKey` (prekey_store.go line 99): atomically remove and
return the pair for `id`; zero values and `ok = false` when absent. -/
def ConsumeOneTimePreKey (s : PrekeyFileStore) (id : String) :
    (Nat × List Nat × Bool) × PrekeyFileStore :=
  match lookupStr s.opkPairs id with
  | none => ((0, List.replicate 32 0, false), s)
  | some p =>
      ((p.priv, p.pub, true), { s with opkPairs := eraseStr s.opkPairs id })

/-- `ListOneTimePreKeyPublics` (prekey_store.go line 128): read-only. -/
def ListOneTimePreKeyPublics (s : PrekeyFileStore) :
    List (String × List Nat) :=
  s.opkPairs.map (fun p => (p.1, p.2.pub))

/-- `SetCurrentSignedPreKeyID` (prekey_store.go line 146). -/
def SetCurrentSignedPreKeyID (s : PrekeyFileStore) (id : String) :
    PrekeyFileStore :=
  { s with currentSignedPreKeyID := id }

/-- `CurrentSignedPreKeyID` (prekey_store.go line 156): read-only. -/
def CurrentSignedPreKeyID (s : PrekeyFileStore) : String × Bool :=
  if s.currentSignedPreKeyID = "" then ("", false)
  else (s.currentSignedPreKeyID, true)

/-- One call against the `domain.PreKeyStore` interface, for quantifying
over operation sequences.  The read-only calls are state-identities. -/
inductive PrekeyOp where
  | saveSignedPreKey (id : String) (priv : Nat) (pub : List Nat)
      (sig : List Nat)
  | loadSignedPreKey (id : String)
  | saveOneTimePreKeys (pairs : List (String × OpkPair))
  | consumeOneTimePreKey (id : String)
  | listOneTimePreKeyPublics
  | setCurrentSignedPreKeyID (id : String)
  | currentSignedPreKeyID
deriving DecidableEq, Repr

/-- The state transition of one store operation (return values dropped). -/
def applyOp (s : PrekeyFileStore) : PrekeyOp → PrekeyFileStore
  | .saveSignedPreKey id priv pub sig => SaveSignedPreKey s id priv pub sig
  | .loadSignedPreKey _ => s
  | .saveOneTimePreKeys pairs => SaveOneTimePreKeys s pairs
  | .consumeOneTimePreKey id => (ConsumeOneTimePreKey s id).2
  | .listOneTimePreKeyPublics => s
  | .setCurrentSignedPreKeyID id => SetCurrentSignedPreKeyID s id
  | .currentSignedPreKeyID => s

/-- Apply a sequence of store operations in order. -/
def applyOps (s : PrekeyFileStore) (ops : List PrekeyOp) : PrekeyFileStore :=
  ops.foldl applyOp s

/-- An operation does not re-insert the one-time pre-key `id`. -/
def opAvoids (id : String) : PrekeyOp → Prop
  | .saveOneTimePreKeys pairs => ∀ p ∈ pairs, p.1 ≠ id
  | _ => True

instance (id : String) (op : PrekeyOp) : Decidable (opAvoids id op) := by
  cases op <;> simp only [opAvoids] <;> infer_instance

end store

/-! ## Wire envelope (`internal/domain/types/messages.go`) -/

/-- `domain.Envelope`.  `fromUser`/`toUser` model the Go `From`/`To`
fields.  The cipher is the AEAD ciphertext produced by the ratchet. -/
structure Envelope where
  fromUser : String
  toUser : String
  header : ratchet.RatchetHeader
  cipher : AEADCiphertext
  preKey : Option x3dh.PrekeyMessage
  associatedData : List Nat
  timestamp : Int
deriving DecidableEq, Repr

/-! ## Relay message queues (`cmd/relay/main.go`) -/

namespace relay

/-- `maxPerUserQueue` (relay main.go line 79). -/
def maxPerUserQueue : Nat := 1000

/-- `maxCipherBytes` (relay main.go line 80): 64 KiB. -/
def maxCipherBytes : Nat := 64 * 1024

/-- `maxFutureSkew` (relay main.go line 82) in seconds. -/
def maxFutureSkewSeconds : Int := 600

/-- The wire length in bytes of a ciphertext (`len(env.Cipher)`): the
ChaCha20-Poly1305 ciphertext is the plaintext length plus the 16-byte
Poly1305 tag. -/
def cipherLen (ct : AEADCiphertext) : Nat := ct.pt.length + 16

/-- The relay's per-user message queues (`state.queues`).  The pre-key
bundle table (`state.bundles`) is disjoint state that no queue handler
touches, so it is not modelled here. -/
structure RelayState where
  queues : List (String × List Envelope)
deriving DecidableEq, Repr

/-- `newState()`: empty queues. -/
def initialRelayState : RelayState := ⟨[]⟩

/-- The queue stored for `user` (a missing map entry reads as the empty
queue, as in Go). -/
def queueOf (st : RelayState) (user : String) : List Envelope :=
  (lookupStr st.queues user).getD []

/-- `state.handleEnqueue` (relay main.go line 389) for a request whose JSON
body decoded to `env`: validations, timestamp fill/skew check, then append
under the per-user cap, dropping the oldest on overflow.  Returns the HTTP
status and the new state.  `now` is the server's Unix time. -/
def handleEnqueue (st : RelayState) (user : String) (env : Envelope)
    (now : Int) : Nat × RelayState :=
  if env.toUser = "" then (400, st)
  else if user = "" ∨ ¬ user = env.toUser then (400, st)
  else if cipherLen env.cipher > maxCipherBytes then (413, st)
  else if env.timestamp ≠ 0 ∧ env.timestamp > now + maxFutureSkewSeconds then
    (400, st)
  else
    let env := if env.timestamp = 0 then { env with timestamp := now } else env
    let queue := queueOf st user ++ [env]
    let queue :=
      if queue.length > maxPerUserQueue then
        queue.drop (queue.length - maxPerUserQueue)
      else queue
    (204, ⟨insertStr st.queues user queue⟩)

/-- `state.handleFetch` (relay main.go line 453): read-only; returns up to
`limit` envelopes from the front (all of them when `limit` is zero or
exceeds the queue length). -/
def handleFetch (st : RelayState) (user : String) (limit : Nat) :
    List Envelope :=
  let queue := queueOf st user
  let limit := if limit = 0 ∨ limit > queue.length then queue.length else limit
  queue.take limit

/-- `state.handleAck` (relay main.go line 487): drop the first
`min(count, len)` envelopes.  A negative count is rejected with 400 before
any mutation; `count` here is the already-validated non-negative value. -/
def handleAck (st : RelayState) (user : String) (count : Nat) :
    Nat × RelayState :=
  let queue := queueOf st user
  let count := if count > queue.length then queue.length else count
  (204, ⟨insertStr st.queues user (queue.drop count)⟩)

/-- One relay request touching the message queues.  `register`,
`GET /prekey` and the canary endpoint only read or write the bundle table
and are identities on the queues. -/
inductive RelayReq where
  | enqueue (user : String) (env : Envelope) (now : Int)
  | fetch (user : String) (limit : Nat)
  | ack (user : String) (count : Nat)
  | bundleEndpoint
deriving DecidableEq, Repr

/-- The state transition of one relay request. -/
def applyReq (st : RelayState) : RelayReq → RelayState
  | .enqueue user env now => (handleEnqueue st user env now).2
  | .fetch _ _ => st
  | .ack user count => (handleAck st user count).2
  | .bundleEndpoint => st

/-- Apply a sequence of relay requests in order. -/
def applyReqs (st : RelayState) (reqs : List RelayReq) : RelayState :=
  reqs.foldl applyReq st

end relay

/-! ## Message service receive path (`internal/services/message/service.go`) -/

namespace message

/-- `domain.Conversation`. -/
structure Conversation where
  peer : String
  state : ratchet.RatchetState
deriving DecidableEq, Repr

/-- `domain.DecryptedMessage`. -/
structure DecryptedMessage where
  fromUser : String
  toUser : String
  plaintext : List Nat
  timestamp : Int
deriving DecidableEq, Repr

/-- The Go zero value of `domain.RatchetState` (what `LoadConversation`
yields alongside `found = false`): nil byte slices, all-zero key arrays,
zero indices, nil map. -/
def zeroRatchetState : ratchet.RatchetState :=
  { rootKey := []
    dhPriv := 0
    dhPub := List.replicate 32 0
    peerDHPub := List.replicate 32 0
    sendChainKey := none
    receiveChainKey := none
    sendMessageIndex := 0
    receiveMessageIndex := 0
    previousChainLength := 0
    skippedKeys := [] }

/-- `RatchetStore.LoadConversation` (per-peer JSON files): the zero
`Conversation` and `found = false` when nothing is stored. -/
def LoadConversation (rs : List (String × Conversation)) (cid : String) :
    Conversation × Bool :=
  match lookupStr rs cid with
  | none => (⟨"", zeroRatchetState⟩, false)
  | some c => (c, true)

/-- `RatchetStore.SaveConversation`. -/
def SaveConversation (rs : List (String × Conversation)) (cid : String)
    (c : Conversation) : List (String × Conversation) :=
  insertStr rs cid c

/-- The distinct error returns of `Service.ReceiveMessage`
(service.go lines 182-336), in source order. -/
inductive ServiceError where
  | unexpectedFirstIndex
  | invalidPreKeyHeaderIndex
  | unexpectedPreKeyMessageIndex
  | missingSignedPreKeyID
  | signedPreKeyNotFound
  | unexpectedPreKeyFromPeer
  | decryptError (e : ratchet.RatchetError)
  | postIndexMismatch
deriving DecidableEq, Repr

/-- The observable outcome of one `ReceiveMessage` call: the decrypted
messages, how many envelopes were acknowledged to the relay (`0` when
`AckMessages` is not called, which includes every error return), the error
if any, and the final stores. -/
structure ReceiveResult where
  messages : List DecryptedMessage
  acked : Nat
  error : Option ServiceError
  ratchetStore : List (String × Conversation)
  prekeyStore : store.PrekeyFileStore
deriving DecidableEq, Repr

/-- The envelope loop of `Service.ReceiveMessage` (service.go
lines 195-335).  `index` and `processed` are the Go loop counter and
`processed` variable; `acc` is `decrypted`.  Identity loading is assumed to
succeed (a correct passphrase); store I/O errors are not modelled;
`rand` supplies the scalars sampled for `InitAsResponder` and inside
`Decrypt`.  Error returns skip the final ack (`acked = 0`); the `break` on
missing bootstrap prerequisites falls through to the ack of `processed`. -/
def receiveLoop (identity : x3dh.Identity)
    (rs : List (String × Conversation)) (ps : store.PrekeyFileStore) :
    List Envelope → Nat → Nat → List DecryptedMessage → List Nat →
    ReceiveResult
  | [], _, processed, acc, _ => ⟨acc, processed, none, rs, ps⟩
  | env :: rest, index, processed, acc, rand =>
    let cid := env.fromUser
    let loaded := LoadConversation rs cid
    let conversation := loaded.1
    let found := loaded.2
    let expectedIndex := conversation.state.receiveMessageIndex
    if expectedIndex = 0 ∧ env.header.messageIndex ≠ 0 then
      ⟨acc, 0, some .unexpectedFirstIndex, rs, ps⟩
    else if env.preKey.isSome ∧ env.header.messageIndex ≠ 0 then
      ⟨acc, 0, some .invalidPreKeyHeaderIndex, rs, ps⟩
    else if env.preKey.isSome ∧ expectedIndex ≠ 0 then
      ⟨acc, 0, some .unexpectedPreKeyMessageIndex, rs, ps⟩
    else
      -- Bootstrap when no conversation is stored; `.inl` results leave the
      -- loop exactly as the corresponding Go `return`/`break` does.
      let pre : ReceiveResult ⊕ (Conversation × store.PrekeyFileStore × List Nat) :=
        if found then
          if env.preKey.isSome then
            .inl ⟨acc, 0, some .unexpectedPreKeyFromPeer, rs, ps⟩
          else .inr (conversation, ps, rand)
        else
          match env.preKey with
          | none => .inl ⟨acc, processed, none, rs, ps⟩
          | some pk =>
            if env.header.dhPub.length ≠ 32 then
              .inl ⟨acc, processed, none, rs, ps⟩
            else
              let senderRatchetPublicKey := env.header.dhPub
              if pk.spkID = "" then
                .inl ⟨acc, 0, some .missingSignedPreKeyID, rs, ps⟩
              else
                let spkLoaded := store.LoadSignedPreKey ps pk.spkID
                if ¬ spkLoaded.2.2.2 then
                  .inl ⟨acc, 0, some .signedPreKeyNotFound, rs, ps⟩
                else
                  let consumed : Option Nat × store.PrekeyFileStore :=
                    if pk.opkID ≠ "" then
                      match store.ConsumeOneTimePreKey ps pk.opkID with
                      | ((priv, _, ok2), ps2) =>
                          (if ok2 then some priv else none, ps2)
                    else (none, ps)
                  let rootKey :=
                    x3dh.ResponderRoot identity spkLoaded.1 consumed.1 pk
                  let st := ratchet.InitAsResponder rootKey identity.xPriv
                    identity.xPub senderRatchetPublicKey (rand.headD 0)
                  .inr (⟨cid, st⟩, consumed.2, rand.tail)
      match pre with
      | .inl r => r
      | .inr (conversation, ps, rand) =>
          let d := ratchet.Decrypt conversation.state env.associatedData
            env.header env.cipher (rand.headD 0)
          match d.1 with
          | .error e => ⟨acc, 0, some (.decryptError e), rs, ps⟩
          | .ok plaintext =>
              if env.preKey.isSome ∧
                  env.header.messageIndex ≠ expectedIndex then
                ⟨acc, 0, some .postIndexMismatch, rs, ps⟩
              else
                let conversation := { conversation with state := d.2 }
                let rs := SaveConversation rs cid conversation
                let msg : DecryptedMessage :=
                  ⟨env.fromUser, env.toUser, plaintext, env.timestamp⟩
                receiveLoop identity rs ps rest (index + 1) (index + 1)
                  (acc ++ [msg]) rand.tail

/-- `Service.ReceiveMessage` (service.go line 182) applied to the batch of
envelopes `FetchMessages` returned. -/
def ReceiveMessage (identity : x3dh.Identity)
    (rs : List (String × Conversation)) (ps : store.PrekeyFileStore)
    (envs : List Envelope) (rand : List Nat) : ReceiveResult :=
  receiveLoop identity rs ps envs 0 0 [] rand

end message

/-! ## Map-model lemmas -/

theorem lookupStr_eraseStr {α : Type} (m : List (String × α)) (k k' : String) :
    lookupStr (eraseStr m k') k =
      if k = k' then none else lookupStr m k := by
  induction m with
  | nil => simp [lookupStr, eraseStr]
  | cons e rest ih =>
      by_cases hkk : k = k'
      · subst hkk
        by_cases hek : e.1 = k <;>
          simp_all [lookupStr, eraseStr, List.find?_cons]
      · by_cases hek : e.1 = k'
        · have h1 : ¬ e.1 = k := fun hc => hkk (hc ▸ hek ▸ rfl)
          simp_all [lookupStr, eraseStr, List.find?_cons]
        · by_cases hek2 : e.1 = k <;>
            simp_all [lookupStr, eraseStr, List.find?_cons]

theorem lookupStr_insertStr_of_ne {α : Type} (m : List (String × α))
    (k' k : String) (v : α) (h : ¬ k' = k) :
    lookupStr (insertStr m k' v) k = lookupStr m k := by
  have h' : ¬ k = k' := fun hc => h hc.symm
  unfold insertStr
  split
  · unfold lookupStr
    rw [List.find?_map]
    have hpred :
        ((fun e : String × α => decide (e.1 = k)) ∘
          fun e => if e.1 = k' then (k', v) else e) =
        fun e : String × α => decide (e.1 = k) := by
      funext e
      by_cases hek : e.1 = k'
      · simp [Function.comp, hek, h]
      · simp [Function.comp, hek]
    rw [hpred]
    cases hfind : m.find? (fun e => decide (e.1 = k)) with
    | none => simp
    | some r =>
        have hr : r.1 = k := by simpa using List.find?_some hfind
        have hrk : ¬ r.1 = k' := fun hc => h' (hr ▸ hc ▸ rfl)
        simp [hrk]
  · unfold lookupStr
    rw [List.find?_append]
    cases hfind : m.find? (fun e => decide (e.1 = k)) with
    | none => simp [List.find?_cons, h]
    | some r => simp

theorem lookupStr_insertStr_self {α : Type} (m : List (String × α))
    (k : String) (v : α) :
    lookupStr (insertStr m k v) k = some v := by
  unfold insertStr
  split
  · next hany =>
      unfold lookupStr
      rw [List.find?_map]
      have hex : ∃ e ∈ m, e.1 = k := by
        simpa [List.any_eq_true] using hany
      have hpred :
          ((fun e : String × α => decide (e.1 = k)) ∘
            fun e => if e.1 = k then (k, v) else e) =
          fun e : String × α => decide (e.1 = k) := by
        funext e
        by_cases hek : e.1 = k <;> simp [Function.comp, hek]
      rw [hpred]
      cases hfind : m.find? (fun e => decide (e.1 = k)) with
      | none =>
          obtain ⟨e, hmem, hek⟩ := hex
          have := List.find?_eq_none.mp hfind e hmem
          simp [hek] at this
      | some r =>
          have hr : r.1 = k := by simpa using List.find?_some hfind
          simp [hr]
  · next hany =>
      unfold lookupStr
      rw [List.find?_append]
      have hnone : m.find? (fun e => decide (e.1 = k)) = none := by
        rw [List.find?_eq_none]
        intro e hmem hc
        exact hany (by
          simp only [List.any_eq_true]
          exact ⟨e, hmem, by simpa using hc⟩)
      simp [hnone, List.find?_cons]

/-! ## Concrete example states shared by the C3/C4/C5 scenarios -/

namespace ratchet

/-- A stale ratchet public key (32 bytes) from a previous chain. -/
def exP1 : List Nat := 1 :: List.replicate 31 0

/-- The peer's current ratchet public key (32 bytes). -/
def exP2 : List Nat := 2 :: List.replicate 31 0

/-- A receiver state on chain `exP2` at receive index 1, holding one
skipped key (value `[9, 9, 9]`) for message 0 of the previous chain
`exP1`. -/
def exSkipState : RatchetState :=
  { rootKey := [5], dhPriv := 3, dhPub := pubOfScalar 3
    peerDHPub := exP2, sendChainKey := none
    receiveChainKey := some [4], sendMessageIndex := 0
    receiveMessageIndex := 1, previousChainLength := 0
    skippedKeys := [((exP1, 0), [9, 9, 9])] }

/-- The same receiver state with no skipped keys. -/
def exPlainState : RatchetState :=
  { exSkipState with skippedKeys := [] }

/-- The header of the previous-chain message 0. -/
def exOldHeader : RatchetHeader := ⟨exP1, 0, 0⟩

/-- The authentic ciphertext for `exOldHeader` under the stored skipped
key. -/
def exOldCT : AEADCiphertext :=
  sealCT [9, 9, 9] (composeAAD [7] exOldHeader) [42]

/-- A ciphertext that fails every AEAD open. -/
def exBadCT : AEADCiphertext := ⟨[], [], [], []⟩

/-- The current-chain header at the expected index 1. -/
def exCurHeader : RatchetHeader := ⟨exP2, 0, 1⟩

/-- The authentic ciphertext for `exCurHeader` under the receive chain's
next message key. -/
def exCurCT : AEADCiphertext :=
  sealCT (kdfCK [4]).2 (composeAAD [7] exCurHeader) [55]

end ratchet

/-! ## Claim C3: skipped key on AEAD failure

The source comment on the error return says "Keep skipped key on failed
auth for later correct packet", and the spec requires the kept entry to
still decrypt the authentic ciphertext.  But `crypto.Wipe(messageKey)` runs
before the error check and zeroes the value stored in the map in place, so
the kept entry's 32-byte key is destroyed and the authentic ciphertext can
never be decrypted afterwards. -/

/-- C3 failing input, evaluated: on `exSkipState` (skipped key `[9, 9, 9]`
stored for `(exP1, 0)`), an AEAD-failing ciphertext for that header
returns `DecryptFailed` and the map still has the entry — but its value is
now all zeros — and the authentic ciphertext, which decrypts fine on the
untouched state, fails after the failed attempt. -/
theorem C3_skipped_key_wiped_on_failed_open :
    (ratchet.Decrypt ratchet.exSkipState [7] ratchet.exOldHeader
        ratchet.exBadCT 0).1 = .error .decryptFailed ∧
    ratchet.lookupSK (ratchet.Decrypt ratchet.exSkipState [7]
        ratchet.exOldHeader ratchet.exBadCT 0).2.skippedKeys
      (ratchet.exP1, 0) = some [0, 0, 0] ∧
    (ratchet.Decrypt ratchet.exSkipState [7] ratchet.exOldHeader
        ratchet.exOldCT 0).1 = .ok [42] ∧
    (ratchet.Decrypt (ratchet.Decrypt ratchet.exSkipState [7]
        ratchet.exOldHeader ratchet.exBadCT 0).2 [7] ratchet.exOldHeader
        ratchet.exOldCT 0).1 = .error .decryptFailed := by
  decide

/-! ## Claim C4: replay rejection -/

/-- C4 counterexample: replaying an envelope whose skipped key was already
consumed does return `DecryptFailed`, but `recv_index` is NOT unchanged.
The first delivery consumes the skipped key for the old-chain header
`(p1, 0)` (leaving `recv_index = 1`); the replay misses the skipped map,
is treated as a peer ratchet step toward the stale `p1`, resets
`recv_index` to 0 and installs `p1` as the peer key before the AEAD open
fails. -/
theorem C4_counterexample_replay_mutates_state :
    (ratchet.Decrypt ratchet.exSkipState [7] ratchet.exOldHeader
        ratchet.exOldCT 0).1 = .ok [42] ∧
    (ratchet.Decrypt ratchet.exSkipState [7] ratchet.exOldHeader
        ratchet.exOldCT 0).2.receiveMessageIndex = 1 ∧
    (ratchet.Decrypt ratchet.exSkipState [7] ratchet.exOldHeader
        ratchet.exOldCT 0).2.skippedKeys = [] ∧
    (ratchet.Decrypt (ratchet.Decrypt ratchet.exSkipState [7]
        ratchet.exOldHeader ratchet.exOldCT 0).2 [7] ratchet.exOldHeader
        ratchet.exOldCT 5).1 = .error .decryptFailed ∧
    (ratchet.Decrypt (ratchet.Decrypt ratchet.exSkipState [7]
        ratchet.exOldHeader ratchet.exOldCT 0).2 [7] ratchet.exOldHeader
        ratchet.exOldCT 5).2.receiveMessageIndex = 0 ∧
    (ratchet.Decrypt (ratchet.Decrypt ratchet.exSkipState [7]
        ratchet.exOldHeader ratchet.exOldCT 0).2 [7] ratchet.exOldHeader
        ratchet.exOldCT 5).2.peerDHPub = ratchet.exP1 := by
  decide

/-- C4 (amended): re-delivering an already-decrypted envelope of the
current receive chain yields `OldOrReplay` with the whole state — in
particular `recv_index` and `skipped_keys` — unchanged.  Re-delivering an
envelope of a previous chain whose skipped key was already consumed yields
`DecryptFailed`, but only after a peer-ratchet step toward the stale
ratchet key: `recv_index` is reset and the peer key, root key and chains
are replaced, so the state is not unchanged on that rejection. -/
theorem C4_replay_rejection (s : ratchet.RatchetState) (ad : List Nat)
    (h : ratchet.RatchetHeader) (ct : AEADCiphertext) (e : Nat)
    (hlen : h.dhPub.length = 32)
    (hmiss : ratchet.lookupSK s.skippedKeys (h.dhPub, h.messageIndex) =
      none)
    (hpeer : s.peerDHPub = h.dhPub)
    (hold : h.messageIndex < s.receiveMessageIndex) :
    ratchet.Decrypt s ad h ct e = (.error .oldOrReplay, s) ∧
    ((ratchet.Decrypt (ratchet.Decrypt ratchet.exSkipState [7]
        ratchet.exOldHeader ratchet.exOldCT 0).2 [7] ratchet.exOldHeader
        ratchet.exOldCT 5).1 = .error .decryptFailed ∧
      (ratchet.Decrypt (ratchet.Decrypt ratchet.exSkipState [7]
        ratchet.exOldHeader ratchet.exOldCT 0).2 [7] ratchet.exOldHeader
        ratchet.exOldCT 5).2.receiveMessageIndex = 0) := by
  constructor
  · unfold ratchet.Decrypt
    rw [if_neg (by simp [hlen])]
    simp only [ratchet.skippedKeyID, hmiss]
    rw [if_pos hpeer]
    rw [if_neg (by omega)]
    rw [if_pos hold]
  · decide

/-- C4 witness: a same-chain replay (index 0 after `recv_index` reached 1)
is rejected as `OldOrReplay` with the state unchanged. -/
theorem C4_replay_rejection_witness :
    ratchet.Decrypt
        { rootKey := [5], dhPriv := 3, dhPub := pubOfScalar 3
          peerDHPub := 2 :: List.replicate 31 0, sendChainKey := none
          receiveChainKey := some [4], sendMessageIndex := 0
          receiveMessageIndex := 1, previousChainLength := 0
          skippedKeys := [] }
        [7] ⟨2 :: List.replicate 31 0, 0, 0⟩ ⟨[], [], [], []⟩ 0 =
      (.error .oldOrReplay,
        { rootKey := [5], dhPriv := 3, dhPub := pubOfScalar 3
          peerDHPub := 2 :: List.replicate 31 0, sendChainKey := none
          receiveChainKey := some [4], sendMessageIndex := 0
          receiveMessageIndex := 1, previousChainLength := 0
          skippedKeys := [] }) :=
  (C4_replay_rejection _ [7] _ _ 0 (by decide) (by decide) (by decide)
    (by decide)).1

/-! ## Claim C5: state on a failed final AEAD open -/

/-- C5 counterexample: on a current-chain target whose final AEAD open
fails, `Decrypt` returns `DecryptFailed` without advancing `recv_index`,
but the state is NOT unchanged: the receive chain key has already been
advanced in place by `kdfCKRecv`, and the legitimate ciphertext for the
same header — which decrypts fine on the untouched state — no longer
decrypts on the returned state. -/
theorem C5_counterexample_recv_chain_advances :
    (ratchet.Decrypt ratchet.exPlainState [7] ratchet.exCurHeader
        ratchet.exBadCT 0).1 = .error .decryptFailed ∧
    (ratchet.Decrypt ratchet.exPlainState [7] ratchet.exCurHeader
        ratchet.exBadCT 0).2.receiveMessageIndex = 1 ∧
    (ratchet.Decrypt ratchet.exPlainState [7] ratchet.exCurHeader
        ratchet.exBadCT 0).2.receiveChainKey ≠
      ratchet.exPlainState.receiveChainKey ∧
    (ratchet.Decrypt ratchet.exPlainState [7] ratchet.exCurHeader
        ratchet.exCurCT 0).1 = .ok [55] ∧
    (ratchet.Decrypt (ratchet.Decrypt ratchet.exPlainState [7]
        ratchet.exCurHeader ratchet.exBadCT 0).2 [7] ratchet.exCurHeader
        ratchet.exCurCT 0).1 = .error .decryptFailed := by
  decide

/-- C5 (amended): for a header/ciphertext pair with no matching skipped
key, on the current chain at exactly the expected index, a failing final
AEAD open returns `DecryptFailed`; `recv_index` is not advanced and
`skipped_keys`, the root key and the DH keys are unchanged, but the
receive chain key has been advanced by one chain step — so the legitimate
ciphertext for the same header no longer decrypts against the returned
in-memory state.  (The message service persists the conversation only
after a successful decrypt, so persisted state is unaffected.) -/
theorem C5_decrypt_failed_advances_recv_chain (s : ratchet.RatchetState)
    (ad : List Nat) (h : ratchet.RatchetHeader) (ct : AEADCiphertext)
    (e : Nat) (ck : List Nat)
    (hlen : h.dhPub.length = 32)
    (hmiss : ratchet.lookupSK s.skippedKeys (h.dhPub, h.messageIndex) =
      none)
    (hpeer : s.peerDHPub = h.dhPub)
    (hidx : h.messageIndex = s.receiveMessageIndex)
    (hck : s.receiveChainKey = some ck)
    (hopen : ratchet.openCT (ratchet.kdfCK ck).2 (ratchet.composeAAD ad h)
      ct = none) :
    ratchet.Decrypt s ad h ct e =
      (.error .decryptFailed,
        { s with receiveChainKey := some (ratchet.kdfCK ck).1 }) := by
  have hskipu : ratchet.skipUntil s h.messageIndex = s := by
    unfold ratchet.skipUntil
    rw [hidx, Nat.sub_self]
    rfl
  unfold ratchet.Decrypt
  rw [if_neg (by simp [hlen])]
  simp only [ratchet.skippedKeyID, hmiss]
  rw [if_pos hpeer]
  rw [if_neg (by omega)]
  rw [if_neg (by omega)]
  simp only [ratchet.decryptTail, hskipu, ratchet.kdfCKRecv, hck,
    ratchet.kdfCK, hopen]
  simp only [ratchet.kdfCK] at hopen
  simp [hopen]

/-- C5 witness: the amended statement evaluated on a concrete state and a
garbage ciphertext. -/
theorem C5_decrypt_failed_advances_recv_chain_witness :
    ratchet.Decrypt
        { rootKey := [5], dhPriv := 3, dhPub := pubOfScalar 3
          peerDHPub := 2 :: List.replicate 31 0, sendChainKey := none
          receiveChainKey := some [4], sendMessageIndex := 0
          receiveMessageIndex := 1, previousChainLength := 0
          skippedKeys := [] }
        [7] ⟨2 :: List.replicate 31 0, 0, 1⟩ ⟨[], [], [], []⟩ 0 =
      (.error .decryptFailed,
        { rootKey := [5], dhPriv := 3, dhPub := pubOfScalar 3
          peerDHPub := 2 :: List.replicate 31 0, sendChainKey := none
          receiveChainKey := some (ratchet.kdfCK [4]).1
          sendMessageIndex := 0, receiveMessageIndex := 1
          previousChainLength := 0, skippedKeys := [] }) :=
  C5_decrypt_failed_advances_recv_chain _ [7] _ _ 0 [4] (by decide)
    (by decide) (by decide) (by decide) (by decide) (by decide)

/-! ## Claim C9: relay per-user queue cap and FIFO behaviour -/

namespace relay

/-- The timestamp-filled envelope `handleEnqueue` stores. -/
def stampedEnv (env : Envelope) (now : Int) : Envelope :=
  if env.timestamp = 0 then { env with timestamp := now } else env

/-- On an accepted (204) enqueue, the stored queue for the target user is
exactly the old queue with the stamped envelope appended, truncated from
the front to the cap. -/
theorem handleEnqueue_accepted (st : RelayState) (user : String)
    (env : Envelope) (now : Int)
    (h : (handleEnqueue st user env now).1 = 204) :
    queueOf (handleEnqueue st user env now).2 user =
      (let q := queueOf st user ++ [stampedEnv env now]
       if q.length > maxPerUserQueue then
         q.drop (q.length - maxPerUserQueue)
       else q) := by
  unfold handleEnqueue at h ⊢
  by_cases h1 : env.toUser = ""
  · rw [if_pos h1] at h; simp at h
  rw [if_neg h1] at h ⊢
  by_cases h2 : user = "" ∨ ¬ user = env.toUser
  · rw [if_pos h2] at h; simp at h
  rw [if_neg h2] at h ⊢
  by_cases h3 : cipherLen env.cipher > maxCipherBytes
  · rw [if_pos h3] at h; simp at h
  rw [if_neg h3] at h ⊢
  by_cases h4 : env.timestamp ≠ 0 ∧ env.timestamp > now + maxFutureSkewSeconds
  · rw [if_pos h4] at h; simp at h
  rw [if_neg h4] at h ⊢
  simp only [queueOf, stampedEnv]
  rw [lookupStr_insertStr_self]
  rfl

/-- The append-then-truncate step never exceeds the cap. -/
theorem capTruncate_le {α : Type} (q : List α) (cap : Nat) :
    (if q.length > cap then q.drop (q.length - cap) else q).length ≤ cap := by
  split
  · next hgt => rw [List.length_drop]; omega
  · next hle => omega

/-- Every queue a relay request produces respects the cap. -/
theorem queueOf_applyReq_le (st : RelayState) (r : RelayReq) (user : String)
    (h : (queueOf st user).length ≤ maxPerUserQueue) :
    (queueOf (applyReq st r) user).length ≤ maxPerUserQueue := by
  cases r with
  | fetch u limit => exact h
  | bundleEndpoint => exact h
  | ack u count =>
      simp only [queueOf] at h
      simp only [applyReq, handleAck]
      by_cases hu : u = user
      · subst hu
        simp only [queueOf]
        rw [lookupStr_insertStr_self]
        simp only [Option.getD_some]
        rw [List.length_drop]
        omega
      · simp only [queueOf]
        rw [lookupStr_insertStr_of_ne _ _ _ _ hu]
        exact h
  | enqueue u env now =>
      simp only [applyReq, handleEnqueue]
      split
      · exact h
      · split
        · exact h
        · split
          · exact h
          · split
            · exact h
            · by_cases hu : u = user
              · subst hu
                simp only [queueOf]
                rw [lookupStr_insertStr_self]
                simp only [Option.getD_some]
                exact capTruncate_le _ _
              · simp only [queueOf]
                rw [lookupStr_insertStr_of_ne _ _ _ _ hu]
                exact h

/-- Queue caps are preserved across whole request sequences. -/
theorem queueOf_applyReqs_le (reqs : List RelayReq) (st : RelayState)
    (user : String) (h : (queueOf st user).length ≤ maxPerUserQueue) :
    (queueOf (applyReqs st reqs) user).length ≤ maxPerUserQueue := by
  induction reqs generalizing st with
  | nil => exact h
  | cons r rest ih =>
      simp only [applyReqs, List.foldl_cons]
      exact ih _ (queueOf_applyReq_le st r user h)

end relay

/-- C9: relay message-queue discipline.  (1) Starting from the empty relay
state, after any sequence of relay requests every per-user queue holds at
most `maxPerUserQueue = 1000` envelopes.  (2) An accepted
`POST /msg/{user}` that finds the queue at the cap drops exactly the oldest
envelope and appends the new one at the back; below the cap it only appends
at the back.  (3) `POST /msg/{user}/ack` drops exactly the first
`min(count, length)` envelopes.  (4) `GET /msg/{user}` returns a prefix of
the queue in order and does not modify the state.  Together these give the
FIFO, drop-oldest-on-overflow queue the spec describes. -/
theorem C9_relay_queue_cap_and_fifo :
    (∀ (reqs : List relay.RelayReq) (user : String),
      (relay.queueOf (relay.applyReqs relay.initialRelayState reqs)
          user).length ≤ relay.maxPerUserQueue) ∧
    (∀ (st : relay.RelayState) (user : String) (env : Envelope) (now : Int),
      (relay.handleEnqueue st user env now).1 = 204 →
      ((relay.queueOf st user).length = relay.maxPerUserQueue →
        relay.queueOf (relay.handleEnqueue st user env now).2 user =
          (relay.queueOf st user).drop 1 ++ [relay.stampedEnv env now]) ∧
      ((relay.queueOf st user).length < relay.maxPerUserQueue →
        relay.queueOf (relay.handleEnqueue st user env now).2 user =
          relay.queueOf st user ++ [relay.stampedEnv env now])) ∧
    (∀ (st : relay.RelayState) (user : String) (count : Nat),
      relay.queueOf (relay.handleAck st user count).2 user =
        (relay.queueOf st user).drop
          (min count (relay.queueOf st user).length)) ∧
    (∀ (st : relay.RelayState) (user : String) (limit : Nat),
      relay.handleFetch st user limit =
        (relay.queueOf st user).take
          (if limit = 0 ∨ limit > (relay.queueOf st user).length then
            (relay.queueOf st user).length
          else limit) ∧
      relay.applyReq st (.fetch user limit) = st) := by
  refine ⟨?_, ?_, ?_, ?_⟩
  · intro reqs user
    refine relay.queueOf_applyReqs_le reqs _ user ?_
    simp [relay.queueOf, relay.initialRelayState, lookupStr]
  · intro st user env now h
    have hq := relay.handleEnqueue_accepted st user env now h
    constructor
    · intro hfull
      rw [hq]
      have hlen : (relay.queueOf st user ++
          [relay.stampedEnv env now]).length =
            relay.maxPerUserQueue + 1 := by
        simp [hfull]
      simp only [hlen]
      rw [if_pos (Nat.lt_succ_self _), Nat.add_sub_cancel_left,
        List.drop_append_of_le_length
          (by rw [hfull]; norm_num [relay.maxPerUserQueue])]
    · intro hlt
      rw [hq]
      have hlen : (relay.queueOf st user ++
          [relay.stampedEnv env now]).length =
            (relay.queueOf st user).length + 1 := by simp
      simp only [hlen]
      rw [if_neg (by omega)]
  · intro st user count
    simp only [relay.handleAck, relay.queueOf]
    rw [lookupStr_insertStr_self]
    simp only [Option.getD_some]
    congr 1
    split <;> omega
  · intro st user limit
    exact ⟨rfl, rfl⟩

/-- C9 witness: a concrete accepted enqueue into a queue of length 1 stays
under the cap and appends at the back. -/
theorem C9_relay_queue_cap_and_fifo_witness :
    ((relay.handleEnqueue
        ⟨[("bob", [⟨"alice", "bob", ⟨[], 0, 0⟩, ⟨[], [], [], [2]⟩, none, [],
            5⟩])]⟩
        "bob" ⟨"carol", "bob", ⟨[], 0, 1⟩, ⟨[], [], [], [3]⟩, none, [], 6⟩
        7).1 = 204 ∧
      (relay.queueOf
          ⟨[("bob", [⟨"alice", "bob", ⟨[], 0, 0⟩, ⟨[], [], [], [2]⟩, none,
              [], 5⟩])]⟩ "bob").length < relay.maxPerUserQueue) ∧
    relay.queueOf (relay.handleEnqueue
        ⟨[("bob", [⟨"alice", "bob", ⟨[], 0, 0⟩, ⟨[], [], [], [2]⟩, none, [],
            5⟩])]⟩
        "bob" ⟨"carol", "bob", ⟨[], 0, 1⟩, ⟨[], [], [], [3]⟩, none, [], 6⟩
        7).2 "bob" =
      relay.queueOf
          ⟨[("bob", [⟨"alice", "bob", ⟨[], 0, 0⟩, ⟨[], [], [], [2]⟩, none,
              [], 5⟩])]⟩ "bob" ++
        [relay.stampedEnv
          ⟨"carol", "bob", ⟨[], 0, 1⟩, ⟨[], [], [], [3]⟩, none, [], 6⟩ 7] :=
  ⟨⟨by decide, by decide⟩,
    ((C9_relay_queue_cap_and_fifo.2.1 _ "bob" _ 7 (by decide)).2
      (by decide))⟩

/-! ## Claim C10: the service rejects non-zero first indices before Decrypt -/

/-- C10: whenever the loop of `ReceiveMessage` reaches an envelope whose
sender has a stored conversation with persisted receive index `0`, and the
envelope's `header.message_index` is non-zero, the service returns the
"unexpected header index for first message" error before `Decrypt` is
attempted: the batch stops, both stores are returned unchanged, no
envelope of the batch is acknowledged, and the output is exactly what was
decrypted before this envelope.  (`ReceiveMessage` is `receiveLoop` started
at index 0 with an empty accumulator, so this covers the envelope at any
batch position.) -/
theorem C10_first_index_rejected_before_decrypt
    (identity : x3dh.Identity) (rs : List (String × message.Conversation))
    (ps : store.PrekeyFileStore) (env : Envelope) (rest : List Envelope)
    (index processed : Nat) (acc : List message.DecryptedMessage)
    (rand : List Nat) (conv : message.Conversation)
    (hstored : lookupStr rs env.fromUser = some conv)
    (hidx : conv.state.receiveMessageIndex = 0)
    (hnz : env.header.messageIndex ≠ 0) :
    message.receiveLoop identity rs ps (env :: rest) index processed acc
        rand =
      ⟨acc, 0, some .unexpectedFirstIndex, rs, ps⟩ := by
  simp only [message.receiveLoop, message.LoadConversation, hstored]
  rw [if_pos ⟨hidx, hnz⟩]

/-- C10 witness: a stored conversation for `alice` with receive index 0 and
an incoming envelope with `message_index = 1` is rejected with the
batch untouched. -/
theorem C10_first_index_rejected_before_decrypt_witness :
    message.receiveLoop ⟨0, [], 0, []⟩
        [("alice", ⟨"alice", message.zeroRatchetState⟩)] ⟨[], [], ""⟩
        [⟨"alice", "bob", ⟨List.replicate 32 0, 0, 1⟩, ⟨[], [], [], []⟩,
          none, [], 5⟩] 0 0 [] [] =
      ⟨[], 0, some .unexpectedFirstIndex,
        [("alice", ⟨"alice", message.zeroRatchetState⟩)], ⟨[], [], ""⟩⟩ :=
  C10_first_index_rejected_before_decrypt _ _ _ _ _ _ _ _ _
    ⟨"alice", message.zeroRatchetState⟩ (by decide) rfl (by decide)

/-! ## Claim C7: envelopes acknowledged versus envelopes decrypted

`ReceiveMessage` acknowledges `processed` envelopes only on the two paths
that fall out of the loop normally (end of batch, or the bootstrap
prerequisite `break`).  Every error return — including a decrypt error
after earlier successful decrypts — returns without calling `AckMessages`
at all, so the successfully decrypted (and persisted) envelopes stay
queued. -/

/-- C7 failing input, evaluated: a batch of two envelopes from `alice`
against a stored conversation whose receive chain key is `[3]`; the first
envelope is sealed under the correct message key and decrypts, the second
is garbage and fails AEAD.  Exactly one envelope is decrypted successfully,
yet zero envelopes are acknowledged (the claim requires exactly one), and
the call returns the decrypt error. -/
theorem C7_decrypt_error_acks_nothing :
    (let p : List Nat := 1 :: List.replicate 31 0
     let convState : ratchet.RatchetState :=
       { rootKey := [], dhPriv := 0, dhPub := List.replicate 32 0
         peerDHPub := p, sendChainKey := none, receiveChainKey := some [3]
         sendMessageIndex := 0, receiveMessageIndex := 0
         previousChainLength := 0, skippedKeys := [] }
     let h0 : ratchet.RatchetHeader := ⟨p, 0, 0⟩
     let env1 : Envelope :=
       ⟨"alice", "bob", h0,
         ratchet.sealCT (ratchet.kdfCK [3]).2 (ratchet.composeAAD [] h0)
           [100], none, [], 5⟩
     let env2 : Envelope :=
       ⟨"alice", "bob", ⟨p, 0, 1⟩, ⟨[], [], [], []⟩, none, [], 6⟩
     let r := message.ReceiveMessage ⟨0, [], 0, []⟩
       [("alice", ⟨"alice", convState⟩)] ⟨[], [], ""⟩ [env1, env2] []
     r.messages = [⟨"alice", "bob", [100], 5⟩] ∧ r.acked = 0 ∧
       r.error = some (.decryptError .decryptFailed)) := by
  decide

/-! ## Claim C6: the chain-step KDF formula -/

namespace ratchet

/-- Modelled from the spec (refinement comparison only): `KDF_CK` exactly as
§4.3 of the spec words it — "HKDF with `salt = chain_key`, `ikm = empty`,
`info = LABEL_CK`, output 64 bytes split 32/32". -/
def specKDF_CK (ck : List Nat) : List Nat × List Nat :=
  let out := hkdfSHA256 [] ck labelCK 64
  (out.take 32, out.drop 32)

end ratchet

/-- C6 counterexample: the chain-step KDF of the code does not match the
claimed formula.  On the 1-byte chain key `[1]`, the message key `kdfCKSend`
(and `kdfCKRecv`) derives differs from the second half of HKDF-SHA256 with
salt = chain key and empty ikm: the source passes the chain key as the HKDF
ikm (`hkdf.New(sha256.New, state.SendChainKey, nil, labelCK)`, where the
second argument is the secret/ikm and the third the salt), not as the
salt. -/
theorem C6_counterexample_kdfCK_not_salt :
    (ratchet.kdfCKSend
        { rootKey := [], dhPriv := 0, dhPub := [], peerDHPub := []
          sendChainKey := some [1], receiveChainKey := some [1]
          sendMessageIndex := 0, receiveMessageIndex := 0
          previousChainLength := 0, skippedKeys := [] }).1 ≠
      some (ratchet.specKDF_CK [1]).2 ∧
    (ratchet.kdfCKRecv
        { rootKey := [], dhPriv := 0, dhPub := [], peerDHPub := []
          sendChainKey := some [1], receiveChainKey := some [1]
          sendMessageIndex := 0, receiveMessageIndex := 0
          previousChainLength := 0, skippedKeys := [] }).1 ≠
      some (ratchet.specKDF_CK [1]).2 := by
  constructor <;> decide

/-- C6 (amended): for every 32-byte chain key, the chain-step KDF used by
both `Encrypt` (via `kdfCKSend`) and `Decrypt` (via `kdfCKRecv`) equals
HKDF-SHA256 invoked with ikm = chain_key, salt = empty, info = "DR|ck",
producing 64 output bytes split as the first 32 bytes = next_chain_key and
the next 32 bytes = message_key; the same formula is used for the send
chain and the receive chain. -/
theorem C6_kdfCK_formula (s : ratchet.RatchetState) (ck : List Nat) :
    (s.sendChainKey = some ck →
      ratchet.kdfCKSend s =
        (some ((hkdfSHA256 ck [] ratchet.labelCK 64).drop 32),
          { s with
            sendChainKey := some ((hkdfSHA256 ck [] ratchet.labelCK 64).take 32) })) ∧
    (s.receiveChainKey = some ck →
      ratchet.kdfCKRecv s =
        (some ((hkdfSHA256 ck [] ratchet.labelCK 64).drop 32),
          { s with
            receiveChainKey := some ((hkdfSHA256 ck [] ratchet.labelCK 64).take 32) })) := by
  constructor
  · intro h
    simp [ratchet.kdfCKSend, h, ratchet.kdfCK]
  · intro h
    simp [ratchet.kdfCKRecv, h, ratchet.kdfCK]

/-- C6 witness: the amended formula evaluated on the chain key `[1]` in a
concrete state. -/
theorem C6_kdfCK_formula_witness :
    ratchet.kdfCKSend
        { rootKey := [], dhPriv := 0, dhPub := [], peerDHPub := []
          sendChainKey := some [1], receiveChainKey := none
          sendMessageIndex := 0, receiveMessageIndex := 0
          previousChainLength := 0, skippedKeys := [] } =
      (some ((hkdfSHA256 [1] [] ratchet.labelCK 64).drop 32),
        { rootKey := [], dhPriv := 0, dhPub := [], peerDHPub := []
          sendChainKey := some ((hkdfSHA256 [1] [] ratchet.labelCK 64).take 32)
          receiveChainKey := none
          sendMessageIndex := 0, receiveMessageIndex := 0
          previousChainLength := 0, skippedKeys := [] }) :=
  (C6_kdfCK_formula _ [1]).1 rfl

/-! ## Claim C1: in-order round trip -/

namespace ratchet

/-- Scenario builder (not a source translation): the sender passes the
plaintexts to `Encrypt` in order, collecting the produced
(header, ciphertext) pairs.  Encryption cannot fail when the send chain is
initialised; a failure would end the sequence early. -/
def encryptSeq (s : RatchetState) (ad : List Nat) :
    List (List Nat) → List (RatchetHeader × AEADCiphertext) × RatchetState
  | [] => ([], s)
  | p :: ps =>
      match Encrypt s ad p 0 with
      | (.ok hc, s') =>
          let rest := encryptSeq s' ad ps
          (hc :: rest.1, rest.2)
      | (.error _, s') => ([], s')

/-- Scenario builder (not a source translation): the receiver passes the
delivered (header, ciphertext) pairs to `Decrypt` in order, collecting each
result. -/
def decryptSeq (r : RatchetState) (ad : List Nat) :
    List (RatchetHeader × AEADCiphertext) →
      List (Except RatchetError (List Nat)) × RatchetState
  | [] => ([], r)
  | (h, c) :: rest =>
      let d := Decrypt r ad h c 0
      let tail := decryptSeq d.2 ad rest
      (d.1 :: tail.1, tail.2)

/-- `Encrypt` on a state whose send chain is initialised: no lazy ratchet
step runs; the header carries the current ratchet public key and send
index, and the ciphertext is sealed under the derived message key. -/
theorem Encrypt_of_sendChainKey (s : RatchetState) (ck ad p : List Nat)
    (e : Nat) (hck : s.sendChainKey = some ck) :
    Encrypt s ad p e =
      (.ok (⟨s.dhPub, s.previousChainLength, s.sendMessageIndex⟩,
          sealCT (kdfCK ck).2
            (composeAAD ad
              ⟨s.dhPub, s.previousChainLength, s.sendMessageIndex⟩) p),
        { s with sendChainKey := some (kdfCK ck).1,
                 sendMessageIndex := (s.sendMessageIndex + 1) % 2 ^ 32 }) := by
  have hens : ensureSendChain s e = s := by
    unfold ensureSendChain
    rw [hck]
  simp only [Encrypt, hens, kdfCKSend, hck, kdfCK]

/-- `Decrypt` of the authentic in-order ciphertext on a matching receive
state: the skipped map is empty, the header belongs to the current chain at
exactly the expected index, so the receive chain advances one step and the
plaintext comes back. -/
theorem Decrypt_in_order (r : RatchetState) (ck ad p : List Nat) (pn : Nat)
    (e : Nat) (pub : List Nat)
    (hck : r.receiveChainKey = some ck)
    (hpeer : r.peerDHPub = pub)
    (hlen : pub.length = 32)
    (hskip : r.skippedKeys = []) :
    Decrypt r ad ⟨pub, pn, r.receiveMessageIndex⟩
        (sealCT (kdfCK ck).2
          (composeAAD ad ⟨pub, pn, r.receiveMessageIndex⟩) p) e =
      (.ok p,
        { r with receiveChainKey := some (kdfCK ck).1,
                 receiveMessageIndex :=
                   (r.receiveMessageIndex + 1) % 2 ^ 32 }) := by
  have hskipu : skipUntil r r.receiveMessageIndex = r := by
    unfold skipUntil
    rw [Nat.sub_self]
    rfl
  unfold Decrypt
  rw [if_neg (by simp [hlen])]
  simp only [hskip, lookupSK, List.find?_nil]
  rw [if_pos hpeer]
  rw [if_neg (by simp)]
  rw [if_neg (by omega)]
  simp only [decryptTail, hskipu, kdfCKRecv, hck, kdfCK, openCT, sealCT,
    aeadOpen_aeadSeal, hskip]
  simp

end ratchet

/-- The chained invariant of the in-order A→B session: the sender's send
chain and the receiver's receive chain hold the same key, the receiver
expects exactly the sender's next index on the sender's current ratchet
public key, and no keys were skipped. -/
theorem C1_round_trip_aux (ad : List Nat) (ps : List (List Nat))
    (s r : ratchet.RatchetState) (ck : List Nat)
    (hs : s.sendChainKey = some ck)
    (hr : r.receiveChainKey = some ck)
    (hpeer : r.peerDHPub = s.dhPub)
    (hlen : s.dhPub.length = 32)
    (hidx : r.receiveMessageIndex = s.sendMessageIndex)
    (hskip : r.skippedKeys = []) :
    (ratchet.decryptSeq r ad (ratchet.encryptSeq s ad ps).1).1 =
      ps.map .ok := by
  induction ps generalizing s r ck with
  | nil => simp [ratchet.encryptSeq, ratchet.decryptSeq]
  | cons p ps ih =>
      rw [ratchet.encryptSeq,
        ratchet.Encrypt_of_sendChainKey s ck ad p 0 hs]
      simp only
      rw [ratchet.decryptSeq]
      have hdec := ratchet.Decrypt_in_order r ck ad p
        s.previousChainLength 0 s.dhPub hr hpeer hlen hskip
      rw [hidx] at hdec
      rw [hdec]
      simp only [List.map_cons]
      congr 1
      exact ih _ _ ((ratchet.kdfCK ck).1) rfl rfl hpeer hlen (by simp [hidx])
        hskip

/-- C1: a ratchet pair initialised from the same root key — the sender via
`InitAsInitiator` toward the peer's identity key, the receiver via
`InitAsResponder` from the ratchet public key the initiator puts in its
first header (which is `InitAsInitiator`'s `dhPub`) — round-trips every
in-order sequence of plaintexts: each `Decrypt` succeeds and returns
exactly the plaintext encrypted at that position, for the same associated
data. -/
theorem C1_round_trip (root : List Nat) (ourPriv : Nat) (ourPub : List Nat)
    (theirPub : List Nat) (bPriv aEph rEnt : Nat)
    (ad : List Nat) (ps : List (List Nat)) :
    (ratchet.decryptSeq
        (ratchet.InitAsResponder root bPriv theirPub
          (ratchet.InitAsInitiator root ourPriv ourPub (pubOfScalar bPriv)
            aEph).dhPub rEnt)
        ad
        (ratchet.encryptSeq
          (ratchet.InitAsInitiator root ourPriv ourPub (pubOfScalar bPriv)
            aEph)
          ad ps).1).1 =
      ps.map .ok := by
  refine C1_round_trip_aux ad ps _ _
    ((ratchet.kdfRK root (dh aEph (pubOfScalar bPriv))).2) rfl ?_ rfl
    (by simp [ratchet.InitAsInitiator, pubOfScalar_length]) rfl rfl
  show some ((ratchet.kdfRK root
      (dh bPriv (ratchet.InitAsInitiator root ourPriv ourPub
        (pubOfScalar bPriv) aEph).dhPub)).2) = _
  have : (ratchet.InitAsInitiator root ourPriv ourPub (pubOfScalar bPriv)
      aEph).dhPub = pubOfScalar aEph := rfl
  rw [this, dh_comm bPriv aEph]

/-! ## Claim C2: X3DH agreement -/

/-- C2: for every pair of identities (key pairs derived from their private
scalars) and every pre-key bundle honestly produced from one of them,
`InitiatorRoot` run by the other party succeeds, and `ResponderRoot` run by
the bundle's owner — given the signed pre-key private, the consumed
one-time pre-key private when the bundle offered one (the bundle's first),
and a `PrekeyMessage` carrying the fields `InitiatorRoot` returned —
produces the identical root key.  The one statement covers both the
with-one-time-pre-key case (`opks` non-empty) and the without case
(`opks = []`). -/
theorem C2_x3dh_roots_agree (aX aEd bX bEd spkPriv eph : Nat)
    (username spkID : String) (opks : List (String × Nat)) :
    x3dh.InitiatorRoot (x3dh.mkIdentity aX aEd)
        (x3dh.honestBundle (x3dh.mkIdentity bX bEd) username spkID spkPriv
          opks) eph =
      .ok
        (x3dh.ResponderRoot (x3dh.mkIdentity bX bEd) spkPriv
            (opks.head?.map (·.2))
            ⟨(x3dh.mkIdentity aX aEd).xPub, pubOfScalar eph, spkID,
              (opks.head?.map (·.1)).getD ""⟩,
          spkID, (opks.head?.map (·.1)).getD "", pubOfScalar eph) := by
  have hverify :
      x3dh.VerifySPK (x3dh.honestBundle (x3dh.mkIdentity bX bEd) username
        spkID spkPriv opks) = true := by
    simp only [x3dh.VerifySPK, x3dh.honestBundle, x3dh.mkIdentity]
    exact verifyEd25519_signEd25519 bEd (pubOfScalar spkPriv)
  cases opks with
  | nil =>
      simp only [x3dh.InitiatorRoot, hverify, Bool.not_true,
        Bool.false_eq_true, if_false, x3dh.honestBundle, x3dh.mkIdentity,
        List.map_nil, x3dh.ResponderRoot, List.head?_nil, Option.map_none,
        Option.getD_none]
      rw [dh_comm aX spkPriv, dh_comm eph bX, dh_comm eph spkPriv]
      rw [if_neg (not_not_intro
        (by simpa [x3dh.honestBundle, x3dh.mkIdentity] using hverify))]
      simp
  | cons o rest =>
      simp only [x3dh.InitiatorRoot, hverify, Bool.not_true,
        Bool.false_eq_true, if_false, x3dh.honestBundle, x3dh.mkIdentity,
        List.map_cons, x3dh.ResponderRoot, List.head?_cons,
        Option.map_some, Option.getD_some]
      rw [dh_comm aX spkPriv, dh_comm eph bX, dh_comm eph spkPriv,
        dh_comm eph o.2]
      rw [if_neg (not_not_intro
        (by simpa [x3dh.honestBundle, x3dh.mkIdentity] using hverify))]
      simp

/-! ## Claim C8: one-time pre-keys are consumed at most once -/

namespace store

theorem lookupStr_saveOTKs_foldl (pairs : List (String × OpkPair))
    (m : List (String × OpkPair)) (id : String)
    (habs : lookupStr m id = none) (havoid : ∀ p ∈ pairs, ¬ p.1 = id) :
    lookupStr (pairs.foldl (fun m p => insertStr m p.1 p.2) m) id = none := by
  induction pairs generalizing m with
  | nil => simpa using habs
  | cons p rest ih =>
      simp only [List.foldl_cons]
      refine ih _ ?_ (fun q hq => havoid q (List.mem_cons_of_mem _ hq))
      rw [lookupStr_insertStr_of_ne _ _ _ _ (havoid p (List.mem_cons_self _ _))]
      exact habs

/-- Once the one-time pre-key `id` is absent, no operation that does not
re-insert it can bring it back. -/
theorem opkAbsent_applyOp (ps : PrekeyFileStore) (id : String)
    (op : PrekeyOp) (havoid : opAvoids id op)
    (habs : lookupStr ps.opkPairs id = none) :
    lookupStr (applyOp ps op).opkPairs id = none := by
  cases op with
  | saveSignedPreKey id' priv pub sig => exact habs
  | loadSignedPreKey id' => exact habs
  | saveOneTimePreKeys pairs =>
      exact lookupStr_saveOTKs_foldl pairs ps.opkPairs id habs havoid
  | consumeOneTimePreKey id' =>
      simp only [applyOp, ConsumeOneTimePreKey]
      cases hlk : lookupStr ps.opkPairs id' with
      | none => simpa [hlk] using habs
      | some p =>
          simp only [hlk]
          rw [lookupStr_eraseStr]
          split <;> simp [habs]
  | listOneTimePreKeyPublics => exact habs
  | setCurrentSignedPreKeyID id' => exact habs
  | currentSignedPreKeyID => exact habs

theorem opkAbsent_applyOps (ps : PrekeyFileStore) (id : String)
    (ops : List PrekeyOp) (havoid : ∀ op ∈ ops, opAvoids id op)
    (habs : lookupStr ps.opkPairs id = none) :
    lookupStr (applyOps ps ops).opkPairs id = none := by
  induction ops generalizing ps with
  | nil => simpa [applyOps] using habs
  | cons op rest ih =>
      simp only [applyOps, List.foldl_cons]
      exact ih _ (fun q hq => havoid q (List.mem_cons_of_mem _ hq))
        (opkAbsent_applyOp ps id op (havoid op (List.mem_cons_self _ _)) habs)

end store

/-- C8: `ConsumeOneTimePreKey(id)` returns the key pair at most once.
After a successful consumption the entry is absent from the store, and
after any further sequence of store operations that does not re-insert
`id`, the entry is still absent and every subsequent call for `id` returns
not-found (the zero pair and `ok = false`) without changing the store. -/
theorem C8_consume_at_most_once (s : store.PrekeyFileStore) (id : String)
    (res : Nat × List Nat × Bool) (s1 : store.PrekeyFileStore)
    (hconsume : store.ConsumeOneTimePreKey s id = (res, s1))
    (hok : res.2.2 = true) :
    lookupStr s1.opkPairs id = none ∧
    ∀ ops : List store.PrekeyOp, (∀ op ∈ ops, store.opAvoids id op) →
      lookupStr (store.applyOps s1 ops).opkPairs id = none ∧
      store.ConsumeOneTimePreKey (store.applyOps s1 ops) id =
        ((0, List.replicate 32 0, false), store.applyOps s1 ops) := by
  have habs : lookupStr s1.opkPairs id = none := by
    unfold store.ConsumeOneTimePreKey at hconsume
    cases hlk : lookupStr s.opkPairs id with
    | none =>
        rw [hlk] at hconsume
        simp only [Prod.mk.injEq] at hconsume
        rw [← hconsume.1] at hok
        simp at hok
    | some p =>
        rw [hlk] at hconsume
        simp only [Prod.mk.injEq] at hconsume
        rw [← hconsume.2]
        rw [lookupStr_eraseStr]
        simp
  refine ⟨habs, fun ops havoid => ?_⟩
  have habs' := store.opkAbsent_applyOps s1 id ops havoid habs
  refine ⟨habs', ?_⟩
  unfold store.ConsumeOneTimePreKey
  rw [habs']

/-- C8 witness: a store holding the single one-time pre-key `o1`; consuming
it succeeds, and after saving an unrelated key and consuming a missing id,
consuming `o1` again returns not-found. -/
theorem C8_consume_at_most_once_witness :
    lookupStr (store.ConsumeOneTimePreKey
        ⟨[], [("o1", ⟨5, [1]⟩)], ""⟩ "o1").2.opkPairs "o1" = none ∧
    store.ConsumeOneTimePreKey
        (store.applyOps (store.ConsumeOneTimePreKey
            ⟨[], [("o1", ⟨5, [1]⟩)], ""⟩ "o1").2
          [.saveOneTimePreKeys [("o2", ⟨6, [2]⟩)],
            .consumeOneTimePreKey "o9"]) "o1" =
      ((0, List.replicate 32 0, false),
        store.applyOps (store.ConsumeOneTimePreKey
            ⟨[], [("o1", ⟨5, [1]⟩)], ""⟩ "o1").2
          [.saveOneTimePreKeys [("o2", ⟨6, [2]⟩)],
            .consumeOneTimePreKey "o9"]) := by
  obtain ⟨h1, h2⟩ := C8_consume_at_most_once ⟨[], [("o1", ⟨5, [1]⟩)], ""⟩ "o1"
    (store.ConsumeOneTimePreKey ⟨[], [("o1", ⟨5, [1]⟩)], ""⟩ "o1").1
    (store.ConsumeOneTimePreKey ⟨[], [("o1", ⟨5, [1]⟩)], ""⟩ "o1").2
    rfl (by decide)
  exact ⟨h1, (h2 _ (by decide)).2⟩

end Ciphera
